import Mathlib

/-!
Verification of the hyperacme ACME-client specification.

The crate root (`src/lib.rs`) declares the modules `acc`, `cert`, `dir`,
`error`, `jwt`, `req`, `trans`, `util`, `api` and `order`, but only the crate
root itself is present in the sources; the bodies of those modules are known
here only through the specification and the crate-root documentation example.
Every definition below that embeds one of those missing bodies is therefore
modelled from the specification text, as its doc comment records.
-/

namespace HyperAcme

/-- Modelled from the spec: the ACME status enumeration
`pending | ready | processing | valid | invalid` used for orders,
authorizations and challenges (missing modules `api`/`order`). -/
inductive Status where
  | pending
  | ready
  | processing
  | valid
  | invalid
  deriving DecidableEq, Repr

/-- Modelled from the spec: the ordering `pending < ready < processing <
{valid|invalid}` on order statuses, as a rank function; `valid` and
`invalid` are both terminal and share the top rank. -/
def Status.rank : Status → Nat
  | .pending => 0
  | .ready => 1
  | .processing => 2
  | .valid => 3
  | .invalid => 3

/-- Modelled from the spec: the legal transitions of an Order (missing module
`order`): `pending → ready → processing → valid`, or `→ invalid` at any
non-terminal point on authorization/finalization failure.  The `Bool` index
records whether the transition is client-initiated; only the finalize call
(`ready → processing`) is. -/
inductive OrderStep : Bool → Status → Status → Prop where
  | authorized : OrderStep false .pending .ready
  | finalized : OrderStep true .ready .processing
  | issued : OrderStep false .processing .valid
  | failed (s : Status) : s ≠ .valid → s ≠ .invalid → OrderStep false s .invalid

/-- Modelled from the spec: some legal transition, client-initiated or
authority-driven. -/
def OrderStepAny (s t : Status) : Prop := ∃ c, OrderStep c s t

/-- Modelled from the spec: the order status reachable from `s` after zero or
more legal transitions; two consecutive polls of the same order observe a
pair of statuses related by this relation. -/
def Status.Reaches (s t : Status) : Prop := Relation.ReflTransGen OrderStepAny s t

/-- Modelled from the spec: one challenge resource (missing modules
`api`/`order`): a type tag such as "http-01" or "dns-01", the
authority-issued token, and a status. -/
structure Challenge where
  ctype : String
  token : String
  status : Status
  deriving DecidableEq, Repr

/-- Modelled from the spec: one authorization resource (missing modules
`api`/`order`): the domain identifier, its status, and its offered
challenges. -/
structure AuthZ where
  domain : String
  status : Status
  challenges : List Challenge
  deriving DecidableEq, Repr

/-- Modelled from the spec: `Auth::http_challenge` (missing module `order`)
returns the authorization's http-01 challenge when one is offered, and
`none` otherwise. -/
def http_challenge (a : AuthZ) : Option Challenge :=
  a.challenges.find? (fun c => c.ctype == "http-01")

/-- Modelled from the spec: the ACME key-authorization construction (missing
modules `order`/`jwt`): the proof value for a challenge token `T` and an
account-key thumbprint `K` is the string `T ++ "." ++ K`. -/
def key_authorization (token thumbprint : String) : String :=
  token ++ "." ++ thumbprint

/-- Modelled from the spec: `Challenge::http_proof` (missing module `order`)
derives the http-01 proof value from the challenge's token and the
account's public-key thumbprint. -/
def http_proof (c : Challenge) (thumbprint : String) : String :=
  key_authorization c.token thumbprint

/-- Modelled from the spec: the transport's nonce supply (missing module
`trans`) together with the authority's nonce generator.  `held` is the
last-known unused nonce captured from the most recent response header;
`counter` is the next fresh nonce the authority will issue, so every nonce
the authority has ever issued is below `counter`. -/
structure NonceState where
  held : Option Nat
  counter : Nat
  deriving DecidableEq, Repr

/-- Modelled from the spec: the nonce-supply invariant that every held nonce
was issued by the authority, hence is below the authority's counter. -/
def NonceWF (s : NonceState) : Prop := ∀ n, s.held = some n → n < s.counter

/-- Modelled from the spec: the dedicated no-op request against the new-nonce
endpoint, performed solely to obtain a nonce; the response header carries
the fresh nonce, which becomes the held one. -/
def fetchNonce (s : NonceState) : Nat × NonceState :=
  (s.counter, { held := some s.counter, counter := s.counter + 1 })

/-- Modelled from the spec: borrow the nonce to attach to a signed request:
take the held nonce if one is available, otherwise perform the dedicated
fetch first; either way the borrowed nonce is removed from the store so it
can never be used again. -/
def takeNonce (s : NonceState) : Nat × NonceState :=
  match s.held with
  | some n => (n, { s with held := none })
  | none =>
      let (n, s') := fetchNonce s
      (n, { s' with held := none })

/-- Modelled from the spec: one signed request through Transport (missing
module `trans`): borrow a nonce, send, and capture the replay-nonce header
of the response (a fresh nonce from the authority) for the next call. -/
def signedSend (s : NonceState) : Nat × NonceState :=
  let (n, s') := takeNonce s
  (n, { held := some s'.counter, counter := s'.counter + 1 })

/-- Modelled from the spec: the nonce that is the most recently observed one
at the moment a request needs it: the held nonce if one is available,
otherwise the one the mandatory dedicated fetch has just returned. -/
def mostRecentNonce (s : NonceState) : Nat :=
  match s.held with
  | some n => n
  | none => (fetchNonce s).1

/-- Modelled from the spec: a serialized sequence of `n` signed requests
(concurrent callers are serialized by the mutual exclusion protecting the
nonce store), returning the list of nonces consumed, in order, and the
final state. -/
def runRequests : Nat → NonceState → List Nat × NonceState
  | 0, s => ([], s)
  | n + 1, s =>
      let (x, s') := signedSend s
      let (xs, s'') := runRequests n s'
      (x :: xs, s'')

/-- Modelled from the spec: the classified errors (missing module `error`):
`badNonce` and the other authority problem types, transport failures, state
errors, validation failures and cryptographic failures. -/
inductive AcmeError where
  | badNonce
  | problem (ty detail : String)
  | transport (detail : String)
  | state (detail : String)
  | validation (detail : String)
  | crypto (detail : String)
  deriving DecidableEq, Repr

/-- Modelled from the spec: one logical signed call through Transport
(missing module `trans`), where `respond` is the authority's answer as a
function of the attached nonce.  On a `badNonce` error the call is retried
exactly once with a newly fetched nonce; any other outcome, success or
error, is returned verbatim.  The final component counts the signed
attempts actually sent. -/
def sendSigned (respond : Nat → Except AcmeError α) (s : NonceState) :
    Except AcmeError α × NonceState × Nat :=
  let (n, s₁) := signedSend s
  match respond n with
  | .error .badNonce =>
      let (n₂, s₂) := signedSend s₁
      (respond n₂, s₂, 2)
  | r => (r, s₁, 1)

/-- Modelled from the spec: the authority's account registry (the remote
counterpart of the missing module `acc`): a map from identity key to the
index of the assigned account URL, plus the next free index.  Identity keys
are abstracted as natural numbers. -/
structure Registry where
  accounts : List (Nat × Nat)
  nextKid : Nat
  deriving DecidableEq, Repr

/-- Modelled from the spec: the authority-assigned account URL ("kid") for
account index `i`. -/
def kidUrl (i : Nat) : String :=
  "https://acme.example/acct/" ++ toString i

/-- Modelled from the spec: the authority's handling of a new-account
request: an already-registered key idempotently gets back the existing
account's kid instead of an error; an unknown key is assigned a fresh
account. -/
def newAccount (key : Nat) (r : Registry) : String × Registry :=
  match r.accounts.lookup key with
  | some i => (kidUrl i, r)
  | none => (kidUrl r.nextKid, ⟨(key, r.nextKid) :: r.accounts, r.nextKid + 1⟩)

/-- Modelled from the spec: `Directory::register_account` (missing modules
`dir`/`acc`) builds a new-account request with the given contacts, signs it
with the identity key under "no kid yet", and stores the kid from the
response. -/
def register_account (key : Nat) (contacts : List String) (r : Registry) :
    String × Registry :=
  newAccount key r

/-- Modelled from the spec: `Directory::load_account` (missing modules
`dir`/`acc`) re-derives the account by re-sending the same registration
request, relying on the idempotent already-registered response. -/
def load_account (key : Nat) (contacts : List String) (r : Registry) :
    String × Registry :=
  newAccount key r

/-- Modelled from the spec: an order resource (missing modules
`api`/`order`): order URL, status, its authorizations, the finalize URL and
the certificate URL once issued. -/
structure Order where
  url : String
  status : Status
  auths : List AuthZ
  finalizeUrl : String
  certUrl : Option String
  deriving DecidableEq, Repr

/-- Modelled from the spec: the authority invariant that an order is only
`ready` once every authorization is `valid`. -/
def Order.ReadyInv (o : Order) : Prop :=
  o.status = .ready → ∀ a ∈ o.auths, a.status = .valid

/-- Modelled from the spec: the observable world a client call acts on: the
order as the authority currently reports it, the issued certificate chain
once one exists, the library's persistence, and a count of the network
writes performed so far. -/
structure World where
  order : Order
  issuedPem : Option String
  persisted : List String
  writes : Nat
  deriving DecidableEq, Repr

/-- Modelled from the spec: the finalize-ready handle (`CsrOrder` of the
missing module `order`) returned once the order has reached `ready`. -/
structure CsrOrder where
  finalizeUrl : String
  deriving DecidableEq, Repr

/-- Modelled from the spec: `NewOrder::confirm_validations` (missing module
`order`) re-fetches the order and returns a finalize-ready handle exactly
when the order has reached `ready`, and no handle otherwise; it is a pure
state check and triggers no external side effect. -/
def confirm_validations (w : World) : Option CsrOrder × World :=
  if w.order.status = .ready then (some ⟨w.order.finalizeUrl⟩, w) else (none, w)

/-- Modelled from the spec: `CsrOrder::finalize` (missing module `order`):
a signed POST of the CSR to the finalize URL, legal only from `ready`
(taking the order to `processing`); invoked from any other state it is a
state error performed without any network write. -/
def finalize (w : World) (csrDer : String) : Except AcmeError Unit × World :=
  if w.order.status = .ready then
    (.ok (), { w with
        order := { w.order with status := .processing },
        writes := w.writes + 1 })
  else
    (.error (.state ("finalize called before the order is ready")), w)

/-- Modelled from the spec: `CertOrder::download_cert` (missing modules
`order`/`cert`): a signed POST-as-GET to the certificate URL of a `valid`
order; returns the PEM chain and also stores the certificate in the
persistence.  From any other state it is a state error. -/
def download_cert (w : World) : Except AcmeError String × World :=
  if w.order.status = .valid then
    match w.issuedPem with
    | some pem => (.ok pem, { w with persisted := pem :: w.persisted })
    | none => (.error (.state ("certificate not yet issued")), w)
  else
    (.error (.state ("download_cert called before the order is valid")), w)

/-- Modelled from the spec: a concrete freshly created order world used as a
test fixture: one pending authorization, nothing issued, nothing persisted,
no writes performed. -/
def pendingWorld : World :=
  ⟨⟨"https://acme.example/order/1", Status.pending,
      [⟨"example.com", Status.pending, [⟨"http-01", "abc123", Status.pending⟩]⟩],
      "https://acme.example/order/1/finalize", none⟩,
    none, [], 0⟩

/-- Modelled from the spec: a concrete world whose order has become `valid`
with an issued certificate chain, used as a test fixture. -/
def validWorld : World :=
  ⟨⟨"https://acme.example/order/1", Status.valid,
      [⟨"example.com", Status.valid, [⟨"http-01", "abc123", Status.valid⟩]⟩],
      "https://acme.example/order/1/finalize",
      some ("https://acme.example/cert/1")⟩,
    some ("-----BEGIN CERTIFICATE-----\npem\n-----END CERTIFICATE-----"),
    [], 3⟩

/-- Modelled from the spec: a fixture authority answer: `badNonce` for the
nonce value 0, success otherwise. -/
def respondOnce (n : Nat) : Except AcmeError Nat :=
  if n = 0 then .error .badNonce else .ok n

theorem OrderStep.rank_le {c : Bool} {s t : Status} (h : OrderStep c s t) :
    s.rank ≤ t.rank := by
  cases h with
  | authorized => decide
  | finalized => decide
  | issued => decide
  | failed s hv hi => cases s <;> simp_all [Status.rank]

theorem Status.Reaches.rank_mono {s t : Status} (h : s.Reaches t) :
    s.rank ≤ t.rank := by
  induction h with
  | refl => exact le_refl _
  | tail _ hstep ih =>
      obtain ⟨c, hc⟩ := hstep
      exact le_trans ih hc.rank_le

/-- C2: along any sequence of statuses observed by repeated polling (each
consecutive pair related by zero or more legal transitions), the rank in the
ordering `pending < ready < processing < {valid|invalid}` is non-decreasing;
and a transition is client-initiated exactly when it is the finalize call
taking the order from `ready` to `processing`. -/
theorem order_status_monotone :
    (∀ l : List Status, l.Chain' Status.Reaches →
      (l.map Status.rank).Chain' (· ≤ ·)) ∧
    (∀ s t : Status, OrderStep true s t ↔ s = .ready ∧ t = .processing) := by
  constructor
  · intro l hl
    rw [List.chain'_map]
    exact hl.imp (fun _ _ h => h.rank_mono)
  · intro s t
    constructor
    · intro h
      cases h with
      | finalized => exact ⟨rfl, rfl⟩
    · rintro ⟨rfl, rfl⟩
      exact OrderStep.finalized

/-- C2 witness: a concrete polled trace `pending, ready, processing, valid`
has non-decreasing ranks, and the finalize step is client-initiated. -/
theorem order_status_monotone_witness :
    (([Status.pending, Status.ready, Status.processing,
        Status.valid].map Status.rank).Chain' (· ≤ ·)) ∧
      OrderStep true Status.ready Status.processing := by
  constructor
  · apply order_status_monotone.1
    refine List.Chain'.cons ?_ (List.Chain'.cons ?_ (List.Chain'.cons ?_ ?_))
    · exact Relation.ReflTransGen.single ⟨false, OrderStep.authorized⟩
    · exact Relation.ReflTransGen.single ⟨true, OrderStep.finalized⟩
    · exact Relation.ReflTransGen.single ⟨false, OrderStep.issued⟩
    · exact List.chain'_singleton _
  · exact (order_status_monotone.2 Status.ready Status.processing).2 ⟨rfl, rfl⟩

/-- C9: `http_challenge` is total with an optional result: when the
authorization offers no http-01 challenge it returns `none` rather than
failing, and any returned challenge is one of the authorization's challenges
and has type http-01. -/
theorem http_challenge_optional :
    (∀ a : AuthZ, (∀ c ∈ a.challenges, c.ctype ≠ "http-01") →
      http_challenge a = none) ∧
    (∀ (a : AuthZ) (c : Challenge), http_challenge a = some c →
      c ∈ a.challenges ∧ c.ctype = "http-01") := by
  constructor
  · intro a h
    rw [http_challenge, List.find?_eq_none]
    intro c hc
    simpa using h c hc
  · intro a c h
    have hmem := List.mem_of_find?_eq_some h
    have htyp := List.find?_some h
    exact ⟨hmem, by simpa using htyp⟩

/-- C9 witness: an authorization offering only a dns-01 challenge yields no
http-01 challenge. -/
theorem http_challenge_optional_witness :
    http_challenge ⟨"example.com", Status.pending,
      [⟨"dns-01", "tok", Status.pending⟩]⟩ = none := by
  apply http_challenge_optional.1
  intro c hc
  simp at hc
  simp [hc]

/-- C6: the derived http-01 key-authorization proof for a challenge with
token `T` and an account-key thumbprint `K` equals `T ++ "." ++ K`; in
particular, for the fixed pair `("abc123", "thumb")` it is the known string
`"abc123.thumb"`. -/
theorem http_proof_key_authorization :
    (∀ (c : Challenge) (k : String),
      http_proof c k = c.token ++ "." ++ k) ∧
    http_proof ⟨"http-01", "abc123", Status.pending⟩ "thumb" = "abc123.thumb" := by
  constructor
  · intro c k
    rfl
  · rfl

theorem signedSend_step (s : NonceState) (hwf : NonceWF s) :
    ∃ x h, signedSend s = (x, ⟨some h, h + 1⟩) ∧ x < h := by
  cases hheld : s.held with
  | some n =>
      refine ⟨n, s.counter, ?_, hwf n hheld⟩
      simp [signedSend, takeNonce, hheld]
  | none =>
      refine ⟨s.counter, s.counter + 1, ?_, Nat.lt_succ_self _⟩
      simp [signedSend, takeNonce, fetchNonce, hheld]

theorem signedSend_canonical (h : Nat) :
    signedSend ⟨some h, h + 1⟩ = (h, ⟨some (h + 1), h + 2⟩) := by
  simp [signedSend, takeNonce]

theorem runRequests_succ (n : Nat) (s : NonceState) :
    runRequests (n + 1) s =
      ((signedSend s).1 :: (runRequests n (signedSend s).2).1,
        (runRequests n (signedSend s).2).2) := by
  rcases hs : signedSend s with ⟨x, s'⟩
  simp [runRequests, hs]

theorem runRequests_canonical_lb (n : Nat) :
    ∀ h x : Nat, x ∈ (runRequests n ⟨some h, h + 1⟩).1 → h ≤ x := by
  induction n with
  | zero =>
      intro h x hx
      simp [runRequests] at hx
  | succ n ih =>
      intro h x hx
      rw [runRequests_succ, signedSend_canonical] at hx
      simp at hx
      rcases hx with rfl | hx
      · exact le_refl _
      · exact le_trans (Nat.le_succ h) (ih (h + 1) x hx)

theorem runRequests_pairwise (n : Nat) :
    ∀ s : NonceState, NonceWF s → ((runRequests n s).1).Pairwise (· < ·) := by
  induction n with
  | zero =>
      intro s _
      simp [runRequests]
  | succ n ih =>
      intro s hwf
      obtain ⟨x, h, hs, hlt⟩ := signedSend_step s hwf
      rw [runRequests_succ, hs]
      refine List.Pairwise.cons ?_ ?_
      · intro y hy
        exact lt_of_lt_of_le hlt (runRequests_canonical_lb n h y hy)
      · refine ih ⟨some h, h + 1⟩ ?_
        intro m hm
        simp at hm ⊢
        omega

/-- C1: nonce uniqueness for the transport's nonce supply.  Along any
serialized sequence of signed requests (concurrent callers serialize on the
mutual exclusion protecting the nonce store) the consumed nonce values are
pairwise distinct, and each consumed nonce is the most recently observed
one at the time of its use: the held nonce captured from the most recent
response header when one is available, otherwise the nonce just returned by
the mandatory dedicated fetch. -/
theorem nonce_uniqueness :
    (∀ (n : Nat) (s : NonceState), NonceWF s → ((runRequests n s).1).Nodup) ∧
    (∀ s : NonceState, (signedSend s).1 = mostRecentNonce s) := by
  constructor
  · intro n s hwf
    exact List.Pairwise.imp Nat.ne_of_lt (runRequests_pairwise n s hwf)
  · intro s
    cases h : s.held <;>
      simp [signedSend, takeNonce, mostRecentNonce, fetchNonce, h]

/-- C1 witness: three signed requests from the empty nonce store consume
pairwise-distinct nonces, and the first consumed nonce is the most recently
observed one. -/
theorem nonce_uniqueness_witness :
    ((runRequests 3 ⟨none, 0⟩).1).Nodup ∧
      (signedSend ⟨none, 0⟩).1 = mostRecentNonce ⟨none, 0⟩ := by
  constructor
  · refine nonce_uniqueness.1 3 ⟨none, 0⟩ ?_
    intro m hm
    simp at hm
  · exact nonce_uniqueness.2 ⟨none, 0⟩

/-- C4: for every signed call through Transport, a `badNonce` answer is
retried exactly once with a newly fetched nonce distinct from the first,
and every other answer — success or any non-`badNonce` error — is returned
to the caller verbatim after a single attempt, never swallowed and never
retried internally. -/
theorem badnonce_retried_once {α : Type} (respond : Nat → Except AcmeError α)
    (s : NonceState) (hwf : NonceWF s) :
    ∃ n₁ s₁ n₂ s₂,
      signedSend s = (n₁, s₁) ∧ signedSend s₁ = (n₂, s₂) ∧ n₂ ≠ n₁ ∧
      (∀ a : α, respond n₁ = .ok a → sendSigned respond s = (.ok a, s₁, 1)) ∧
      (∀ e : AcmeError, e ≠ .badNonce → respond n₁ = .error e →
          sendSigned respond s = (.error e, s₁, 1)) ∧
      (respond n₁ = .error .badNonce →
          sendSigned respond s = (respond n₂, s₂, 2)) := by
  obtain ⟨x, h, hs, hlt⟩ := signedSend_step s hwf
  refine ⟨x, ⟨some h, h + 1⟩, h, ⟨some (h + 1), h + 2⟩, hs,
    signedSend_canonical h, by omega, ?_, ?_, ?_⟩
  · intro a hresp
    simp [sendSigned, hs, hresp]
  · intro e hne hresp
    cases e <;> simp_all [sendSigned, hs]
  · intro hresp
    simp [sendSigned, hs, hresp, signedSend_canonical]

/-- C4 witness: at the concrete fixture authority `respondOnce` (which
answers `badNonce` to nonce 0 and succeeds otherwise) and the empty nonce
store, the retry contract holds. -/
theorem badnonce_retried_once_witness :
    ∃ n₁ s₁ n₂ s₂,
      signedSend (⟨none, 0⟩ : NonceState) = (n₁, s₁) ∧
      signedSend s₁ = (n₂, s₂) ∧ n₂ ≠ n₁ ∧
      (∀ a : Nat, respondOnce n₁ = .ok a →
          sendSigned respondOnce ⟨none, 0⟩ = (.ok a, s₁, 1)) ∧
      (∀ e : AcmeError, e ≠ .badNonce → respondOnce n₁ = .error e →
          sendSigned respondOnce ⟨none, 0⟩ = (.error e, s₁, 1)) ∧
      (respondOnce n₁ = .error .badNonce →
          sendSigned respondOnce ⟨none, 0⟩ = (respondOnce n₂, s₂, 2)) := by
  refine badnonce_retried_once respondOnce ⟨none, 0⟩ ?_
  intro m hm
  simp at hm

/-- C5: registering an account and then loading it with the same identity
key and contacts yields the same account URL both times and leaves the
authority's registry unchanged, and a second register with the same key is
likewise the identity: it never creates a second account. -/
theorem register_load_idempotent (key : Nat) (contacts : List String)
    (r : Registry) :
    load_account key contacts (register_account key contacts r).2
        = register_account key contacts r ∧
    register_account key contacts (register_account key contacts r).2
        = register_account key contacts r := by
  cases hl : r.accounts.lookup key with
  | some i =>
      constructor <;> simp [register_account, load_account, newAccount, hl]
  | none =>
      constructor <;> simp [register_account, load_account, newAccount, hl]

/-- C7: `confirm_validations` is a pure state check on the re-fetched
order: while some authorization is outside `valid` it returns no handle,
once the order has reached `ready` it returns the finalize-ready handle,
and in every case the world is left untouched — no external side effect. -/
theorem confirm_validations_state_check (w : World) (hinv : w.order.ReadyInv) :
    ((∃ a ∈ w.order.auths, a.status ≠ .valid) →
        confirm_validations w = (none, w)) ∧
    (w.order.status = .ready →
        confirm_validations w = (some ⟨w.order.finalizeUrl⟩, w)) ∧
    (confirm_validations w).2 = w := by
  refine ⟨?_, ?_, ?_⟩
  · rintro ⟨a, ha, hv⟩
    have hnr : w.order.status ≠ .ready := fun hr => hv (hinv hr a ha)
    simp [confirm_validations, hnr]
  · intro hr
    simp [confirm_validations, hr]
  · by_cases hr : w.order.status = .ready <;> simp [confirm_validations, hr]

/-- C7 witness: on the concrete pending order world, `confirm_validations`
returns no handle and leaves the world untouched. -/
theorem confirm_validations_state_check_witness :
    ((∃ a ∈ pendingWorld.order.auths, a.status ≠ .valid) →
        confirm_validations pendingWorld = (none, pendingWorld)) ∧
    (pendingWorld.order.status = .ready →
        confirm_validations pendingWorld
          = (some ⟨pendingWorld.order.finalizeUrl⟩, pendingWorld)) ∧
    (confirm_validations pendingWorld).2 = pendingWorld := by
  refine confirm_validations_state_check pendingWorld ?_
  intro hr
  simp [pendingWorld] at hr

/-- C3: calling finalize while some authorization is not `valid`
deterministically fails with a state error and performs no network write:
the returned world — order, issued material, persistence and write count —
is exactly the input world. -/
theorem finalize_requires_valid_auths (w : World) (csrDer : String)
    (hinv : w.order.ReadyInv) (h : ∃ a ∈ w.order.auths, a.status ≠ .valid) :
    finalize w csrDer =
      (.error (.state ("finalize called before the order is ready")), w) := by
  obtain ⟨a, ha, hv⟩ := h
  have hnr : w.order.status ≠ .ready := fun hr => hv (hinv hr a ha)
  simp [finalize, hnr]

/-- C3 witness: finalizing the concrete pending order world fails with a
state error and returns the world unchanged. -/
theorem finalize_requires_valid_auths_witness :
    finalize pendingWorld ("csr-der") =
      (.error (.state ("finalize called before the order is ready")),
        pendingWorld) := by
  refine finalize_requires_valid_auths pendingWorld ("csr-der") ?_ ?_
  · intro hr
    simp [pendingWorld] at hr
  · exact ⟨⟨"example.com", Status.pending,
      [⟨"http-01", "abc123", Status.pending⟩]⟩, by decide, by decide⟩

/-- C8: on an order whose status is `valid` with an issued certificate,
`download_cert` returns the PEM chain, and calling it a second time returns
byte-identical output: the downloaded certificate is immutable. -/
theorem download_cert_idempotent (w : World) (pem : String)
    (hv : w.order.status = .valid) (hp : w.issuedPem = some pem) :
    (download_cert w).1 = .ok pem ∧
    (download_cert (download_cert w).2).1 = .ok pem := by
  have h1 : download_cert w
      = (.ok pem, { w with persisted := pem :: w.persisted }) := by
    simp [download_cert, hv, hp]
  refine ⟨by rw [h1], ?_⟩
  rw [h1]
  simp [download_cert, hv, hp]

/-- C8 witness: downloading twice from the concrete valid-order world
returns the same PEM chain both times. -/
theorem download_cert_idempotent_witness :
    (download_cert validWorld).1
        = .ok ("-----BEGIN CERTIFICATE-----\npem\n-----END CERTIFICATE-----") ∧
    (download_cert (download_cert validWorld).2).1
        = .ok ("-----BEGIN CERTIFICATE-----\npem\n-----END CERTIFICATE-----") :=
  download_cert_idempotent validWorld
    ("-----BEGIN CERTIFICATE-----\npem\n-----END CERTIFICATE-----")
    (by rfl) (by rfl)

/-- C10: a successful `download_cert` does more than return the PEM chain:
it also stores the downloaded certificate in the library's persistence, so
afterwards the persisted state contains exactly the new certificate on top
of what was there before. -/
theorem download_cert_persists (w : World) (pem : String)
    (h : (download_cert w).1 = .ok pem) :
    (download_cert w).2.persisted = pem :: w.persisted ∧
    pem ∈ (download_cert w).2.persisted := by
  by_cases hv : w.order.status = .valid
  · cases hp : w.issuedPem with
    | some q =>
        have hq : download_cert w
            = (.ok q, { w with persisted := q :: w.persisted }) := by
          simp [download_cert, hv, hp]
        rw [hq] at h ⊢
        simp at h
        subst h
        simp
    | none =>
        simp [download_cert, hv, hp] at h
  · simp [download_cert, hv] at h

/-- C10 witness: after downloading from the concrete valid-order world, the
persisted state contains the certificate. -/
theorem download_cert_persists_witness :
    (download_cert validWorld).2.persisted
        = ("-----BEGIN CERTIFICATE-----\npem\n-----END CERTIFICATE-----")
          :: validWorld.persisted ∧
    ("-----BEGIN CERTIFICATE-----\npem\n-----END CERTIFICATE-----")
        ∈ (download_cert validWorld).2.persisted :=
  download_cert_persists validWorld
    ("-----BEGIN CERTIFICATE-----\npem\n-----END CERTIFICATE-----")
    (by rfl)

end HyperAcme
